import Mathlib

/-!
# Verification of `scripts/populate_cards.py`

A shallow embedding of the data pipeline in `scripts/populate_cards.py`:
the record transformation `transform_data` and the loader
`insert_into_supabase`, together with a model of `json.dumps` / `json.loads`
restricted to the shapes the script serializes (lists of strings; rows of
string/null/object fields).

Conventions of the embedding:
* Python `None` and absent optional attributes are both `Option.none`
  (the SDK `Card` is a dataclass: every declared attribute exists, optional
  ones may hold `None`; `hasattr` on a declared field is always true, so
  `hasattr(card, f) and card.f` collapses to "`card.f` is truthy").
* Python dicts built by the script are association lists in insertion order.
* Market prices are JSON numbers carried through unchanged; they are
  modelled as `Rat` (no arithmetic is ever performed on them).
* `datetime.now().isoformat()` is a parameter `now : String`.
* The HTTP layer (`requests.post`) is a parameter
  `post : Request → Except PyErr Response`; an `Except.error` models a
  transport-level exception raised by the call.
-/

/-- A JSON-like value as produced by the script for row fields. -/
inductive Value where
  | null : Value
  | str : String → Value
  | num : Rat → Value
  | obj : List (String × Value) → Value

/-- `tcgplayer.prices.<finish>` entry of the SDK: an object with an optional
`market` sub-field (`TCGPrice` in pokemontcgsdk). Other sub-fields
(`low`, `mid`, `high`, `directLow`) are never read by the script. -/
structure TCGPrice where
  market : Option Rat
deriving DecidableEq

/-- `card.tcgplayer.prices` of the SDK: one optional quote per finish. -/
structure TCGPrices where
  normal : Option TCGPrice
  holofoil : Option TCGPrice
  reverseHolofoil : Option TCGPrice
  firstEditionHolofoil : Option TCGPrice
  firstEditionNormal : Option TCGPrice
deriving DecidableEq

/-- `card.tcgplayer` of the SDK. -/
structure TCGPlayer where
  url : String
  updatedAt : String
  prices : Option TCGPrices
deriving DecidableEq

/-- `card.images` of the SDK. -/
structure Images where
  small : Option String
  large : Option String
deriving DecidableEq

/-- `card.set` of the SDK (only the fields the script reads). -/
structure SetInfo where
  id : String
  name : String
deriving DecidableEq

/-- A raw card record from the Pokémon TCG API, with exactly the attributes
`transform_data` reads. Required fields (accessed without a `hasattr` guard
and guaranteed by the SDK dataclass) are plain; optional ones are `Option`. -/
structure Card where
  id : String
  name : String
  supertype : String
  number : String
  set : SetInfo
  types : Option (List String)
  subtypes : Option (List String)
  rarity : Option String
  artist : Option String
  evolvesFrom : Option String
  tcgplayer : Option TCGPlayer
  images : Option Images
deriving DecidableEq

/-- One transformed row: the dict literal built in `transform_data`,
as an association list in insertion order. -/
abbrev Row := List (String × Value)

/-- `getattr(x, "market", None)` where `x` is `card.tcgplayer.prices.<finish>`:
`None` has no `market` attribute, so the default `None` is returned;
otherwise the quote's (optional) `market` value. -/
def getMarket : Option TCGPrice → Option Rat
  | none => none
  | some p => p.market

/-- Embed an optional string as a field value (`None` ↦ JSON null). -/
def optStr : Option String → Value
  | none => Value.null
  | some s => Value.str s

/-- Embed an optional number as a field value (`None` ↦ JSON null). -/
def optNum : Option Rat → Value
  | none => Value.null
  | some q => Value.num q

/-- `hasattr(card, 'tcgplayer.prices')` from line 98 of the script.
Python's `hasattr` looks up an attribute literally named
`"tcgplayer.prices"` (the dot is not interpreted); a `Card` object has no
such attribute, so the check is `False` for every card. -/
def hasattrCardTcgplayerDotPrices (_ : Card) : Bool := false

/-! ## A model of `json.dumps` / `json.loads` for lists of strings

`transform_data` serializes `card.types` / `card.subtypes` (lists of
strings) with `json.dumps`, which by default uses `ensure_ascii=True`:
`"` and `\` get short escapes, control characters get `\b \t \n \f \r`
or `\u00xx`, printable ASCII is emitted literally, every other code point
becomes `\uxxxx` (a surrogate pair for code points above `0xFFFF`), and
list items are joined with `", "`. `json.loads` is modelled on the
grammar of such documents (arrays of strings, with JSON whitespace
tolerated between tokens). -/

/-- The double-quote character. -/
def dquote : Char := Char.ofNat 34

/-- The backslash character. -/
def bslash : Char := Char.ofNat 92

/-- Lowercase hexadecimal digit, as emitted by Python's `'\\u%04x'`. -/
def hexDig (d : Nat) : Char :=
  if d < 10 then Char.ofNat (48 + d) else Char.ofNat (87 + d)

/-- The four hex digits of `n < 0x10000`, most significant first. -/
def toHex4 (n : Nat) : List Char :=
  [hexDig (n / 4096 % 16), hexDig (n / 256 % 16), hexDig (n / 16 % 16), hexDig (n % 16)]

/-- How `json.dumps` (with `ensure_ascii=True`) renders one character. -/
def escapeChar (c : Char) : List Char :=
  if c = dquote then [bslash, dquote]
  else if c = bslash then [bslash, bslash]
  else if c.toNat = 8 then [bslash, 'b']
  else if c.toNat = 9 then [bslash, 't']
  else if c.toNat = 10 then [bslash, 'n']
  else if c.toNat = 12 then [bslash, 'f']
  else if c.toNat = 13 then [bslash, 'r']
  else if c.toNat < 32 then bslash :: 'u' :: toHex4 c.toNat
  else if c.toNat ≤ 126 then [c]
  else if c.toNat < 65536 then bslash :: 'u' :: toHex4 c.toNat
  else
    bslash :: 'u' :: toHex4 (55296 + (c.toNat - 65536) / 1024)
      ++ bslash :: 'u' :: toHex4 (56320 + (c.toNat - 65536) % 1024)

/-- The UTF-16 code units of one character: the code point itself below
`0x10000`, a high/low surrogate pair above. `escapeChar` emits exactly one
`\uxxxx`-style unit per entry of this list (or a literal/short-escape for
the single-unit case). -/
def utf16Units (c : Char) : List Nat :=
  if c.toNat < 65536 then [c.toNat]
  else [55296 + (c.toNat - 65536) / 1024, 56320 + (c.toNat - 65536) % 1024]

/-- `json.dumps` of a single string, as a character list. -/
def encodeStringChars (s : String) : List Char :=
  dquote :: (s.data.map escapeChar).flatten ++ [dquote]

/-- Join chunks with a separator (`", ".join` in Python). -/
def joinSep (sep : List Char) : List (List Char) → List Char
  | [] => []
  | [x] => x
  | x :: xs => x ++ sep ++ joinSep sep xs

/-- `json.dumps` of a list of strings. -/
def jsonDumpsList (l : List String) : String :=
  String.mk ('[' :: joinSep [',', ' '] (l.map encodeStringChars) ++ [']'])

/-- JSON whitespace. -/
def isWs (c : Char) : Bool :=
  c.toNat = 32 || c.toNat = 9 || c.toNat = 10 || c.toNat = 13

/-- Drop leading JSON whitespace. -/
def skipWs : List Char → List Char
  | [] => []
  | c :: cs => if isWs c then skipWs cs else c :: cs

/-- Value of one hexadecimal digit (`json.loads` accepts both cases). -/
def fromHexDig (c : Char) : Option Nat :=
  if 48 ≤ c.toNat ∧ c.toNat ≤ 57 then some (c.toNat - 48)
  else if 97 ≤ c.toNat ∧ c.toNat ≤ 102 then some (c.toNat - 87)
  else if 65 ≤ c.toNat ∧ c.toNat ≤ 70 then some (c.toNat - 55)
  else none

/-- Code point of a short escape `\<e>` accepted by `json.loads`. -/
def escCode (e : Char) : Option Nat :=
  if e = dquote then some 34
  else if e = bslash then some 92
  else if e = '/' then some 47
  else if e = 'b' then some 8
  else if e = 'f' then some 12
  else if e = 'n' then some 10
  else if e = 'r' then some 13
  else if e = 't' then some 9
  else none

/-- Scan the body of a JSON string literal (after the opening quote) into
UTF-16 code units, consuming the closing quote; raw control characters are
rejected, as in `json.loads` strict mode. -/
def parseUnits : List Char → Option (List Nat × List Char)
  | [] => none
  | c :: rest =>
    if c = dquote then some ([], rest)
    else if c = bslash then
      match rest with
      | [] => none
      | e :: rest2 =>
        if e = 'u' then
          match rest2 with
          | a :: b :: c2 :: d :: rest3 =>
            match fromHexDig a, fromHexDig b, fromHexDig c2, fromHexDig d with
            | some da, some db, some dc, some dd =>
              match parseUnits rest3 with
              | some (us, r) => some ((((da * 16 + db) * 16 + dc) * 16 + dd) :: us, r)
              | none => none
            | _, _, _, _ => none
          | _ => none
        else
          match escCode e with
          | some n =>
            match parseUnits rest2 with
            | some (us, r) => some (n :: us, r)
            | none => none
          | none => none
    else if c.toNat < 32 then none
    else
      match parseUnits rest with
      | some (us, r) => some (c.toNat :: us, r)
      | none => none

/-- The character with code point `n`, when `n` is a Unicode scalar value. -/
def mkChar (n : Nat) : Option Char :=
  if n.isValidChar then some (Char.ofNat n) else none

/-- Recombine UTF-16 code units into characters, pairing surrogates as
`json.loads` does; a lone surrogate has no scalar value and is rejected. -/
def combineUnits : List Nat → Option (List Char)
  | [] => some []
  | n :: ns =>
    if 55296 ≤ n ∧ n < 56320 then
      match ns with
      | [] => none
      | m :: ns2 =>
        if 56320 ≤ m ∧ m < 57344 then
          (mkChar (65536 + (n - 55296) * 1024 + (m - 56320))).bind fun ch =>
            (combineUnits ns2).map fun cs => ch :: cs
        else none
    else
      (mkChar n).bind fun ch => (combineUnits ns).map fun cs => ch :: cs

/-- Parse one JSON string literal starting at the opening quote. -/
def parseStringToken (l : List Char) : Option (String × List Char) :=
  match l with
  | [] => none
  | c :: rest =>
    if c = dquote then
      match parseUnits rest with
      | some (us, r) =>
        match combineUnits us with
        | some cs => some (String.mk cs, r)
        | none => none
      | none => none
    else none

/-- Parse the remaining items of a string array: `(ws ',' ws string)* ws ']'`.
`fuel` bounds the recursion; each iteration consumes at least one character,
so any `fuel` above the input length is enough. -/
def parseItems : Nat → List Char → Option (List String × List Char)
  | 0, _ => none
  | fuel + 1, l =>
    match skipWs l with
    | [] => none
    | c :: r =>
      if c = ']' then some ([], r)
      else if c = ',' then
        match parseStringToken (skipWs r) with
        | some (s, r2) =>
          match parseItems fuel r2 with
          | some (ss, r3) => some (s :: ss, r3)
          | none => none
        | none => none
      else none

/-- `json.loads` on a document that is a JSON array of strings. -/
def jsonLoadsStrList (s : String) : Option (List String) :=
  match skipWs s.data with
  | [] => none
  | c :: r =>
    if c = '[' then
      match skipWs r with
      | [] => none
      | c2 :: r2 =>
        if c2 = ']' then (if skipWs r2 = [] then some [] else none)
        else
          match parseStringToken (c2 :: r2) with
          | some (s1, r3) =>
            match parseItems (r3.length + 1) r3 with
            | some (ss, r4) => if skipWs r4 = [] then some (s1 :: ss) else none
            | none => none
          | none => none
    else none

/-! ## `json.dumps` of the whole batch (the request body) -/

/-- The opening-brace character. -/
def lbrace : Char := Char.ofNat 123

/-- The closing-brace character. -/
def rbrace : Char := Char.ofNat 125

mutual

/-- `json.dumps` of one row field value. The `num` case renders a `Rat`
with `toString`; Python's float `repr` is not modelled further, because no
row produced by `transform_data` contains a numeric value (the prices
object is unreachable, see `hasattrCardTcgplayerDotPrices`). -/
def dumpValue : Value → List Char
  | Value.null => ['n', 'u', 'l', 'l']
  | Value.str s => encodeStringChars s
  | Value.num q => (toString q).data
  | Value.obj fs => lbrace :: dumpFields fs ++ [rbrace]

/-- `json.dumps` of a dict's fields, in insertion order, with the default
`", "` / `": "` separators. -/
def dumpFields : List (String × Value) → List Char
  | [] => []
  | [(k, v)] => encodeStringChars k ++ ':' :: ' ' :: dumpValue v
  | (k, v) :: fs =>
    encodeStringChars k ++ ':' :: ' ' :: dumpValue v ++ ',' :: ' ' :: dumpFields fs

end

/-- `json.dumps(data)` for the full list of transformed rows: one JSON
array containing every row, in order. -/
def jsonDumpsRows (rows : List Row) : String :=
  String.mk ('[' :: joinSep [',', ' '] (rows.map fun r => dumpValue (Value.obj r)) ++ [']'])

/-! ## The transformation (`transform_data`, lines 69–113) -/

/-- The `types` / `subtypes` fields (lines 84–85):
`json.dumps(card.types) if hasattr(card, 'types') and card.types else None`.
`hasattr` is true on the dataclass, so the guard is the truthiness of the
value: a non-empty list serializes, `None` and `[]` give null. -/
def typesField : Option (List String) → Value
  | none => Value.null
  | some l => if l.isEmpty then Value.null else Value.str (jsonDumpsList l)

/-- The `prices` sub-dict (lines 92–98): built only when
`hasattr(card, 'tcgplayer.prices') and card.tcgplayer.prices` holds;
since the dotted `hasattr` is always `False`, the else-branch `None` is
taken for every card and the dict of market prices is dead code. -/
def pricesField (c : Card) (t : TCGPlayer) : Value :=
  if hasattrCardTcgplayerDotPrices c && t.prices.isSome then
    match t.prices with
    | some p =>
      Value.obj [("normal", optNum (getMarket p.normal)),
                 ("holofoil", optNum (getMarket p.holofoil)),
                 ("reverseHolofoil", optNum (getMarket p.reverseHolofoil)),
                 ("firstEditionHolofoil", optNum (getMarket p.firstEditionHolofoil)),
                 ("firstEditionNormal", optNum (getMarket p.firstEditionNormal))]
    | none => Value.null
  else Value.null

/-- The `tcgplayer` field (lines 89–99): the whole field is null when
`card.tcgplayer` is absent/`None`, otherwise a dict with `url`,
`updatedAt` and `prices`. -/
def tcgplayerField (c : Card) : Value :=
  match c.tcgplayer with
  | none => Value.null
  | some t =>
    Value.obj [("url", Value.str t.url),
               ("updatedAt", Value.str t.updatedAt),
               ("prices", pricesField c t)]

/-- The dict literal `transformed_item` (lines 79–105) built for one card;
`now` is `datetime.now().isoformat()`. -/
def transformOne (c : Card) (now : String) : Row :=
  [("id", Value.str c.id),
   ("card_name", Value.str c.name),
   ("set_id", Value.str c.set.id),
   ("set_name", Value.str c.set.name),
   ("types", typesField c.types),
   ("subtypes", typesField c.subtypes),
   ("supertype", Value.str c.supertype),
   ("rarity", optStr c.rarity),
   ("card_number", Value.str c.number),
   ("tcgplayer", tcgplayerField c),
   ("artist", optStr c.artist),
   ("evolves_from", optStr c.evolvesFrom),
   ("image_small", optStr (c.images.bind Images.small)),
   ("image_large", optStr (c.images.bind Images.large)),
   ("updated_at", Value.str now)]

/-- A transform error, carrying the exception message. -/
abbrev PyErr := String

/-- The `for card in cards` loop inside the `try` block (lines 75–110):
rows are appended one by one; an exception while transforming a record
aborts the loop and the `except` branch returns the empty list, discarding
the rows accumulated so far. The per-record body is abstracted as `step`,
which returns `Except.error` when transforming that record raises. -/
def transformLoop (step : α → Except PyErr Row) : List α → List Row → List Row
  | [], acc => acc
  | c :: cs, acc =>
    match step c with
    | Except.ok r => transformLoop step cs (acc ++ [r])
    | Except.error _ => []

/-- `transform_data` with an explicit per-record step (starting from the
empty `transformed_data` accumulator of line 72). -/
def transformDataWith (step : α → Except PyErr Row) (cards : List α) : List Row :=
  transformLoop step cards []

/-- `transform_data` on well-formed SDK records, where building the dict
never raises: every access is on a declared dataclass attribute. -/
def transform_data (cards : List Card) (now : String) : List Row :=
  transformDataWith (fun c => Except.ok (transformOne c now)) cards

/-! ## The loader (`insert_into_supabase`, lines 115–151) -/

/-- An outbound HTTP request as assembled by the script. -/
structure Request where
  url : String
  headers : List (String × String)
  body : String
deriving DecidableEq

/-- An HTTP response (the two members the script reads). -/
structure Response where
  status_code : Nat
  text : String
deriving DecidableEq

/-- `insert_into_supabase(data, table_name)` with the module globals
`SUPABASE_URL` / `SUPABASE_KEY` and the HTTP layer passed explicitly;
`post` returning `Except.error` models `requests.post` raising. The
result pairs the returned count with the list of requests issued. -/
def insert_into_supabase (post : Request → Except PyErr Response) (data : List Row)
    (table_name supabase_url supabase_key : String) : Nat × List Request :=
  if data.isEmpty then (0, [])
  else
    let headers := [("apikey", supabase_key),
                    ("Authorization", "Bearer " ++ supabase_key),
                    ("Content-Type", "application/json"),
                    ("Prefer", "return=minimal")]
    let endpoint := supabase_url ++ "/rest/v1/" ++ table_name
    let upsert_endpoint := endpoint ++ "?on_conflict=card_id"
    let req : Request := { url := upsert_endpoint, headers := headers, body := jsonDumpsRows data }
    match post req with
    | Except.ok response => (if response.status_code = 201 then data.length else 0, [req])
    | Except.error _ => (0, [req])

/-! ## Concrete records used in witnesses -/

/-- A raw record with a full `tcgplayer` pricing block: every finish has a
quote and every quote has a market price. -/
def fullPrices : TCGPrices :=
  { normal := some { market := some (21/4) }
    holofoil := some { market := some 7 }
    reverseHolofoil := some { market := some (3/2) }
    firstEditionHolofoil := some { market := some 9 }
    firstEditionNormal := some { market := some 4 } }

/-- A raw record carrying `fullPrices` under `tcgplayer`. -/
def cardFullPricing : Card :=
  { id := "base1-1", name := "Alakazam", supertype := "Pokémon", number := "1"
    set := { id := "base1", name := "Base" }
    types := some ["Psychic"], subtypes := some ["Stage 2"]
    rarity := some "Rare Holo", artist := some "Ken Sugimori"
    evolvesFrom := some "Kadabra"
    tcgplayer := some { url := "https://prices.pokemontcg.io/tcgplayer/base1-1"
                        updatedAt := "2021/08/04", prices := some fullPrices }
    images := none }

/-- A raw record with the pricing block entirely absent. -/
def cardNoPricing : Card :=
  { id := "base1-2", name := "Blastoise", supertype := "Pokémon", number := "2"
    set := { id := "base1", name := "Base" }
    types := some ["Water", "Grass"], subtypes := some []
    rarity := none, artist := none, evolvesFrom := none
    tcgplayer := none, images := none }

/-- A minimal transformed row used to exercise the loader. -/
def sampleRow : Row := [("id", Value.str "base1-1")]

/-! ## Helper lemmas -/

theorem charValid (c : Char) : c.toNat < 55296 ∨ (57344 ≤ c.toNat ∧ c.toNat < 1114112) :=
  c.valid

theorem fromHexDig_hexDig_fin : ∀ d : Fin 16, fromHexDig (hexDig d.val) = some d.val := by
  decide

theorem fromHexDig_hexDig (d : Nat) (h : d < 16) : fromHexDig (hexDig d) = some d :=
  fromHexDig_hexDig_fin ⟨d, h⟩

theorem mkChar_toNat (c : Char) : mkChar c.toNat = some c := by
  rw [mkChar, if_pos (show c.toNat.isValidChar from c.valid), Char.ofNat_toNat]

theorem parseUnits_hex (n : Nat) (h : n < 65536) (tail : List Char) :
    parseUnits (bslash :: 'u' :: (toHex4 n ++ tail)) =
      match parseUnits tail with
      | some (us, r) => some (n :: us, r)
      | none => none := by
  have e1 := fromHexDig_hexDig (n / 4096 % 16) (Nat.mod_lt _ (by omega))
  have e2 := fromHexDig_hexDig (n / 256 % 16) (Nat.mod_lt _ (by omega))
  have e3 := fromHexDig_hexDig (n / 16 % 16) (Nat.mod_lt _ (by omega))
  have e4 := fromHexDig_hexDig (n % 16) (Nat.mod_lt _ (by omega))
  have hval : (((n / 4096 % 16) * 16 + n / 256 % 16) * 16 + n / 16 % 16) * 16 + n % 16 = n := by
    omega
  simp only [toHex4, List.cons_append, List.nil_append, parseUnits, if_true]
  rw [e1, e2, e3, e4]
  simp only [hval, List.nil_append]
  rw [if_neg (by decide : ¬(bslash = dquote)), List.append_eq, List.nil_append]

theorem parseUnits_shortEsc (e : Char) (n : Nat) (he : escCode e = some n) (hne : ¬(e = 'u'))
    (tail : List Char) (us : List Nat) (r : List Char) (h : parseUnits tail = some (us, r)) :
    parseUnits (bslash :: e :: tail) = some (n :: us, r) := by
  rw [parseUnits.eq_def]
  simp only
  rw [if_neg (by decide : ¬(bslash = dquote)), if_pos trivial, if_neg hne, he, h]

theorem parseUnits_lit (c : Char) (hq : ¬(c = dquote)) (hb : ¬(c = bslash))
    (hc : ¬(c.toNat < 32)) (tail : List Char) (us : List Nat) (r : List Char)
    (h : parseUnits tail = some (us, r)) :
    parseUnits (c :: tail) = some (c.toNat :: us, r) := by
  rw [parseUnits.eq_def]
  simp only
  rw [if_neg hq, if_neg hb, if_neg hc, h]

set_option maxHeartbeats 1600000 in
theorem parseUnits_escapeChar (c : Char) (tail : List Char) (us : List Nat) (r : List Char)
    (h : parseUnits tail = some (us, r)) :
    parseUnits (escapeChar c ++ tail) = some (utf16Units c ++ us, r) := by
  have hv := charValid c
  unfold escapeChar
  split_ifs with h1 h2 h3 h4 h5 h6 h7 h8 h9 h10
  · subst h1
    rw [show utf16Units dquote = [34] from by decide]
    simpa using parseUnits_shortEsc dquote 34 (by decide) (by decide) tail us r h
  · subst h2
    rw [show utf16Units bslash = [92] from by decide]
    simpa using parseUnits_shortEsc bslash 92 (by decide) (by decide) tail us r h
  · rw [show utf16Units c = [c.toNat] from by simp [utf16Units]; omega, h3]
    simpa using parseUnits_shortEsc 'b' 8 (by decide) (by decide) tail us r h
  · rw [show utf16Units c = [c.toNat] from by simp [utf16Units]; omega, h4]
    simpa using parseUnits_shortEsc 't' 9 (by decide) (by decide) tail us r h
  · rw [show utf16Units c = [c.toNat] from by simp [utf16Units]; omega, h5]
    simpa using parseUnits_shortEsc 'n' 10 (by decide) (by decide) tail us r h
  · rw [show utf16Units c = [c.toNat] from by simp [utf16Units]; omega, h6]
    simpa using parseUnits_shortEsc 'f' 12 (by decide) (by decide) tail us r h
  · rw [show utf16Units c = [c.toNat] from by simp [utf16Units]; omega, h7]
    simpa using parseUnits_shortEsc 'r' 13 (by decide) (by decide) tail us r h
  · rw [show utf16Units c = [c.toNat] from by simp [utf16Units]; omega]
    simp only [List.cons_append]
    rw [parseUnits_hex c.toNat (by omega) tail, h]
    simp
  · rw [show utf16Units c = [c.toNat] from by simp [utf16Units]; omega]
    exact parseUnits_lit c h1 h2 (by omega) tail us r h
  · rw [show utf16Units c = [c.toNat] from by simp [utf16Units]; omega]
    simp only [List.cons_append]
    rw [parseUnits_hex c.toNat (by omega) tail, h]
    simp
  · rw [show utf16Units c =
        [55296 + (c.toNat - 65536) / 1024, 56320 + (c.toNat - 65536) % 1024] from by
      simp [utf16Units]; omega]
    simp only [List.cons_append, List.append_assoc]
    rw [parseUnits_hex (55296 + (c.toNat - 65536) / 1024) (by omega)]
    rw [parseUnits_hex (56320 + (c.toNat - 65536) % 1024) (by omega) tail, h]
    simp

theorem parseUnits_encoded (cs : List Char) (rest : List Char) :
    parseUnits ((cs.map escapeChar).flatten ++ dquote :: rest) =
      some ((cs.map utf16Units).flatten, rest) := by
  induction cs with
  | nil =>
    simp only [List.map_nil, List.flatten_nil, List.nil_append]
    rw [parseUnits.eq_def]
    simp
  | cons c cs ih =>
    simp only [List.map_cons, List.flatten_cons, List.append_assoc]
    exact parseUnits_escapeChar c _ _ _ ih

theorem combineUnits_encoded (cs : List Char) :
    combineUnits ((cs.map utf16Units).flatten) = some cs := by
  induction cs with
  | nil => rfl
  | cons c cs ih =>
    have hv := charValid c
    simp only [List.map_cons, List.flatten_cons]
    by_cases h : c.toNat < 65536
    · rw [show utf16Units c = [c.toNat] from by simp [utf16Units, h]]
      simp only [List.cons_append, List.nil_append]
      rw [combineUnits.eq_def]
      simp only
      rw [if_neg (by omega), mkChar_toNat c, ih]
      rfl
    · rw [show utf16Units c =
          [55296 + (c.toNat - 65536) / 1024, 56320 + (c.toNat - 65536) % 1024] from by
        simp [utf16Units, h]]
      simp only [List.cons_append, List.nil_append]
      rw [combineUnits.eq_def]
      simp only
      rw [if_pos (by omega), if_pos (by omega)]
      rw [show 65536 + (55296 + (c.toNat - 65536) / 1024 - 55296) * 1024 +
            (56320 + (c.toNat - 65536) % 1024 - 56320) = c.toNat from by omega]
      rw [mkChar_toNat c, ih]
      rfl

theorem skipWs_not_ws (c : Char) (h : isWs c = false) (l : List Char) :
    skipWs (c :: l) = c :: l := by
  simp [skipWs, h]

theorem skipWs_space (l : List Char) : skipWs (' ' :: l) = skipWs l := by
  have h : isWs ' ' = true := rfl
  simp [skipWs, h]

theorem parseStringToken_encoded (s : String) (rest : List Char) :
    parseStringToken (encodeStringChars s ++ rest) = some (s, rest) := by
  obtain ⟨cs⟩ := s
  have hshape : encodeStringChars (String.mk cs) ++ rest =
      dquote :: ((cs.map escapeChar).flatten ++ dquote :: rest) := by
    simp [encodeStringChars]
  rw [hshape, parseStringToken.eq_def]
  simp only
  rw [if_pos trivial, parseUnits_encoded cs rest]
  simp only
  rw [combineUnits_encoded cs]

theorem parseItems_encoded (ss : List String) (rest : List Char) (fuel : Nat)
    (hf : ss.length < fuel) :
    parseItems fuel ((ss.map (fun s => ',' :: ' ' :: encodeStringChars s)).flatten
      ++ ']' :: rest) = some (ss, rest) := by
  induction ss generalizing fuel rest with
  | nil =>
    cases fuel with
    | zero => omega
    | succ f =>
      simp only [List.map_nil, List.flatten_nil, List.nil_append]
      rw [parseItems.eq_def]
      simp only
      rw [skipWs_not_ws ']' rfl]
      simp only
      rw [if_pos trivial]
  | cons s ss ih =>
    cases fuel with
    | zero => omega
    | succ f =>
      simp only [List.map_cons, List.flatten_cons, List.cons_append, List.append_assoc]
      rw [parseItems.eq_def]
      simp only
      rw [skipWs_not_ws ',' rfl]
      simp only
      rw [if_neg (by decide : ¬((',' : Char) = ']')), if_pos trivial]
      rw [skipWs_space]
      rw [show (encodeStringChars s ++
            ((ss.map (fun t => ',' :: ' ' :: encodeStringChars t)).flatten ++ ']' :: rest)) =
          dquote :: ((s.data.map escapeChar).flatten ++
            (dquote :: ((ss.map (fun t => ',' :: ' ' :: encodeStringChars t)).flatten
              ++ ']' :: rest))) from by simp [encodeStringChars]]
      rw [skipWs_not_ws dquote rfl]
      rw [show (dquote :: ((s.data.map escapeChar).flatten ++
            (dquote :: ((ss.map (fun t => ',' :: ' ' :: encodeStringChars t)).flatten
              ++ ']' :: rest)))) =
          encodeStringChars s ++
            ((ss.map (fun t => ',' :: ' ' :: encodeStringChars t)).flatten ++ ']' :: rest)
          from by simp [encodeStringChars]]
      rw [parseStringToken_encoded]
      simp only
      rw [ih rest f (by simpa using Nat.lt_of_succ_lt_succ hf)]

theorem joinSep_commaSpace (s1 : String) (ss : List String) :
    joinSep [',', ' '] ((s1 :: ss).map encodeStringChars) =
      encodeStringChars s1 ++ (ss.map (fun s => ',' :: ' ' :: encodeStringChars s)).flatten := by
  induction ss generalizing s1 with
  | nil => simp [joinSep]
  | cons s2 ss ih =>
    simp only [List.map_cons]
    rw [joinSep]
    simp only [List.map_cons] at ih
    rw [ih s2]
    simp [List.flatten_cons, List.append_assoc]
    simp

theorem encTail_length (ss : List String) :
    ss.length ≤ ((ss.map (fun s => ',' :: ' ' :: encodeStringChars s)).flatten).length := by
  induction ss with
  | nil => simp
  | cons s ss ih =>
    simp only [List.map_cons, List.flatten_cons, List.length_append, List.length_cons]
    omega

theorem jsonLoads_jsonDumps (l : List String) :
    jsonLoadsStrList (jsonDumpsList l) = some l := by
  cases l with
  | nil => rfl
  | cons s1 ss =>
    rw [jsonDumpsList, joinSep_commaSpace]
    rw [jsonLoadsStrList.eq_def]
    simp only
    rw [show ('[' :: (encodeStringChars s1 ++
          (ss.map (fun s => ',' :: ' ' :: encodeStringChars s)).flatten) ++ [']']) =
        '[' :: (encodeStringChars s1 ++
          ((ss.map (fun s => ',' :: ' ' :: encodeStringChars s)).flatten ++ ']' :: [])) from by
      simp [List.cons_append, List.append_assoc]]
    rw [skipWs_not_ws '[' rfl]
    simp only
    rw [if_pos trivial]
    rw [show (encodeStringChars s1 ++
          ((ss.map (fun s => ',' :: ' ' :: encodeStringChars s)).flatten ++ ']' :: [])) =
        dquote :: ((s1.data.map escapeChar).flatten ++
          (dquote :: ((ss.map (fun s => ',' :: ' ' :: encodeStringChars s)).flatten
            ++ ']' :: []))) from by simp [encodeStringChars]]
    rw [skipWs_not_ws dquote rfl]
    simp only
    rw [if_neg (by decide : ¬(dquote = ']'))]
    rw [show (dquote :: ((s1.data.map escapeChar).flatten ++
          (dquote :: ((ss.map (fun s => ',' :: ' ' :: encodeStringChars s)).flatten
            ++ ']' :: [])))) =
        encodeStringChars s1 ++
          ((ss.map (fun s => ',' :: ' ' :: encodeStringChars s)).flatten ++ ']' :: [])
        from by simp [encodeStringChars]]
    rw [parseStringToken_encoded]
    simp only
    rw [parseItems_encoded ss [] _ (by
      have := encTail_length ss
      simp only [List.length_append, List.length_cons]
      omega)]
    simp only
    rw [skipWs]
    simp

theorem transformLoop_ok {α : Type} (f : α → Row) (cs : List α) (acc : List Row) :
    transformLoop (fun c => Except.ok (f c)) cs acc = acc ++ cs.map f := by
  induction cs generalizing acc with
  | nil => simp [transformLoop]
  | cons c cs ih => simp [transformLoop, ih]

theorem transformLoop_err {α : Type} (step : α → Except PyErr Row) (cs : List α)
    (acc : List Row) (h : ∃ c ∈ cs, ∃ e, step c = Except.error e) :
    transformLoop step cs acc = [] := by
  induction cs generalizing acc with
  | nil => simp at h
  | cons c cs ih =>
    rcases h with ⟨d, hd, e, he⟩
    rcases List.mem_cons.mp hd with rfl | hd2
    · simp [transformLoop, he]
    · cases hs : step c with
      | ok r => simpa [transformLoop, hs] using ih _ ⟨d, hd2, e, he⟩
      | error e2 => simp [transformLoop, hs]

/-- C2: a record whose pricing block is absent gets a wholly null
`tcgplayer` field, not a partially-null object. -/
theorem tcgplayer_null_of_absent_block (c : Card) (now : String)
    (h : c.tcgplayer = none) :
    (transformOne c now).lookup "tcgplayer" = some Value.null := by
  simp [transformOne, List.lookup, tcgplayerField, h]

theorem tcgplayer_null_of_absent_block_witness :
    (transformOne cardNoPricing "2024-01-01T00:00:00").lookup "tcgplayer" = some Value.null :=
  tcgplayer_null_of_absent_block cardNoPricing "2024-01-01T00:00:00" rfl

/-- C10: every transformed row has exactly the same fifteen keys, in the
same order, whatever optional source fields are present. -/
theorem row_has_fixed_keys (c : Card) (now : String) :
    (transformOne c now).map Prod.fst =
      ["id", "card_name", "set_id", "set_name", "types", "subtypes", "supertype",
       "rarity", "card_number", "tcgplayer", "artist", "evolves_from",
       "image_small", "image_large", "updated_at"] := rfl

/-- C4: transform yields exactly one row per record, in order, and each
row's `id` equals the source record's `id`. -/
theorem transform_one_row_per_record (cards : List Card) (now : String) :
    transform_data cards now = cards.map (fun c => transformOne c now) ∧
    ∀ c : Card, (transformOne c now).lookup "id" = some (Value.str c.id) := by
  constructor
  · unfold transform_data transformDataWith
    simpa using transformLoop_ok (fun c => transformOne c now) cards []
  · intro c
    simp [transformOne, List.lookup]

/-- C1: the code evaluated at a record whose pricing block is fully
populated (every finish has a market quote): the output `prices` object is
null, because `hasattr(card, 'tcgplayer.prices')` is always `False`, so no
market price is ever preserved. -/
theorem tcgplayer_prices_null_despite_quotes :
    (transformOne cardFullPricing "2021-08-04T00:00:00").lookup "tcgplayer" =
      some (Value.obj
        [("url", Value.str "https://prices.pokemontcg.io/tcgplayer/base1-1"),
         ("updatedAt", Value.str "2021/08/04"),
         ("prices", Value.null)]) := rfl

/-- C3: `types`/`subtypes` are null when the source list is absent or
empty, and otherwise are the JSON encoding of the exact list, whose
decoding reproduces the original list. -/
theorem types_subtypes_json (c : Card) (now : String) :
    ((c.types = none ∨ c.types = some []) →
        (transformOne c now).lookup "types" = some Value.null) ∧
    (∀ l, c.types = some l → l ≠ [] →
        (transformOne c now).lookup "types" = some (Value.str (jsonDumpsList l)) ∧
        jsonLoadsStrList (jsonDumpsList l) = some l) ∧
    ((c.subtypes = none ∨ c.subtypes = some []) →
        (transformOne c now).lookup "subtypes" = some Value.null) ∧
    (∀ l, c.subtypes = some l → l ≠ [] →
        (transformOne c now).lookup "subtypes" = some (Value.str (jsonDumpsList l)) ∧
        jsonLoadsStrList (jsonDumpsList l) = some l) := by
  refine ⟨?_, ?_, ?_, ?_⟩
  · rintro (h | h) <;> simp [transformOne, List.lookup, typesField, h]
  · intro l hl hne
    refine ⟨?_, jsonLoads_jsonDumps l⟩
    have he : l.isEmpty = false := by simpa using hne
    simp [transformOne, List.lookup, typesField, hl, he]
  · rintro (h | h) <;> simp [transformOne, List.lookup, typesField, h]
  · intro l hl hne
    refine ⟨?_, jsonLoads_jsonDumps l⟩
    have he : l.isEmpty = false := by simpa using hne
    simp [transformOne, List.lookup, typesField, hl, he]

theorem types_subtypes_json_witness :
    ((transformOne cardNoPricing "2024-01-01T00:00:00").lookup "types" =
        some (Value.str (jsonDumpsList ["Water", "Grass"])) ∧
      jsonLoadsStrList (jsonDumpsList ["Water", "Grass"]) = some ["Water", "Grass"]) ∧
    (transformOne cardNoPricing "2024-01-01T00:00:00").lookup "subtypes" = some Value.null :=
  ⟨(types_subtypes_json cardNoPricing "2024-01-01T00:00:00").2.1
      ["Water", "Grass"] rfl (by simp),
   (types_subtypes_json cardNoPricing "2024-01-01T00:00:00").2.2.1 (Or.inr rfl)⟩

/-- C7: an exception while transforming any record of the batch makes
`transform_data` return the empty list, discarding rows already
transformed, and no exception escapes (the result is a plain list). -/
theorem transform_error_discards_batch {α : Type} (step : α → Except PyErr Row)
    (cards : List α) (h : ∃ c ∈ cards, ∃ e, step c = Except.error e) :
    transformDataWith step cards = [] :=
  transformLoop_err step cards [] h

theorem transform_error_discards_batch_witness :
    transformDataWith
      (fun n : Nat => if n = 0 then Except.ok sampleRow else Except.error "bad record")
      [0, 1] = [] :=
  transform_error_discards_batch _ [0, 1] ⟨1, by simp, "bad record", rfl⟩

/-- C6: an empty batch returns 0 and issues no HTTP request. -/
theorem loader_empty_no_request (post : Request → Except PyErr Response)
    (tbl url key : String) :
    insert_into_supabase post [] tbl url key = (0, []) := rfl

/-- C5: a non-201 response yields 0; an exception from the HTTP layer
yields 0 (nothing is raised: the loader's result is a plain number);
a 201 response yields the number of input rows. -/
theorem loader_status_behavior (data : List Row) (tbl url key : String) :
    (∀ post resp, (∀ q, post q = Except.ok resp) → resp.status_code ≠ 201 →
        (insert_into_supabase post data tbl url key).1 = 0) ∧
    (∀ post resp, (∀ q, post q = Except.ok resp) → resp.status_code = 201 →
        (insert_into_supabase post data tbl url key).1 = data.length) ∧
    (∀ post err, (∀ q, post q = Except.error err) →
        (insert_into_supabase post data tbl url key).1 = 0) := by
  refine ⟨?_, ?_, ?_⟩
  · intro post resp hpost h201
    by_cases hd : data.isEmpty
    · simp [insert_into_supabase, hd]
    · simp [insert_into_supabase, hd, hpost, h201]
  · intro post resp hpost h201
    by_cases hd : data.isEmpty
    · simp [insert_into_supabase, hd, List.isEmpty_iff.mp hd]
    · simp [insert_into_supabase, hd, hpost, h201]
  · intro post err hpost
    by_cases hd : data.isEmpty
    · simp [insert_into_supabase, hd]
    · simp [insert_into_supabase, hd, hpost]

theorem loader_status_behavior_witness :
    (insert_into_supabase (fun _ => Except.ok ⟨400, "error"⟩) [sampleRow]
        "pokemon_cards" "https://example.supabase.co" "key").1 = 0 ∧
    (insert_into_supabase (fun _ => Except.ok ⟨201, ""⟩) [sampleRow]
        "pokemon_cards" "https://example.supabase.co" "key").1 = 1 ∧
    (insert_into_supabase (fun _ => Except.error "connection reset") [sampleRow]
        "pokemon_cards" "https://example.supabase.co" "key").1 = 0 :=
  ⟨(loader_status_behavior [sampleRow] "pokemon_cards" "https://example.supabase.co"
      "key").1 _ ⟨400, "error"⟩ (fun _ => rfl) (by decide),
   by
    simpa using (loader_status_behavior [sampleRow] "pokemon_cards"
      "https://example.supabase.co" "key").2.1 _ ⟨201, ""⟩ (fun _ => rfl) rfl,
   (loader_status_behavior [sampleRow] "pokemon_cards" "https://example.supabase.co"
      "key").2.2 _ "connection reset" (fun _ => rfl)⟩

/-- C8: a non-empty batch issues exactly one POST request, at the upsert
endpoint, with the four headers of the script, and with the whole batch
serialized as a single JSON array in the body. -/
theorem loader_single_request (post : Request → Except PyErr Response) (data : List Row)
    (tbl url key : String) (h : data ≠ []) :
    (insert_into_supabase post data tbl url key).2 =
      [{ url := url ++ "/rest/v1/" ++ tbl ++ "?on_conflict=card_id",
         headers := [("apikey", key), ("Authorization", "Bearer " ++ key),
                     ("Content-Type", "application/json"), ("Prefer", "return=minimal")],
         body := jsonDumpsRows data }] := by
  simp only [insert_into_supabase]
  rw [if_neg (by simpa using h)]
  split <;> rfl

theorem loader_single_request_witness :
    (insert_into_supabase (fun _ => Except.ok ⟨201, ""⟩) [sampleRow]
        "pokemon_cards" "https://example.supabase.co" "key").2 =
      [{ url := "https://example.supabase.co" ++ "/rest/v1/" ++ "pokemon_cards"
           ++ "?on_conflict=card_id",
         headers := [("apikey", "key"), ("Authorization", "Bearer " ++ "key"),
                     ("Content-Type", "application/json"), ("Prefer", "return=minimal")],
         body := jsonDumpsRows [sampleRow] }] :=
  loader_single_request _ [sampleRow] "pokemon_cards" "https://example.supabase.co" "key"
    (by simp)

/-- C9: the loader always reports all rows or none: its count is either 0
or exactly the input length. -/
theorem loader_all_or_nothing (post : Request → Except PyErr Response) (data : List Row)
    (tbl url key : String) :
    (insert_into_supabase post data tbl url key).1 = 0 ∨
    (insert_into_supabase post data tbl url key).1 = data.length := by
  simp only [insert_into_supabase]
  split
  · exact Or.inl rfl
  · split
    · split
      · exact Or.inr rfl
      · exact Or.inl rfl
    · exact Or.inl rfl
